import Mathlib

/-!
Verification of the arbitrage volume-optimization core of the Hackalytics
backend (`Backend/app/services/arbitrage_service.py`,
`Backend/app/services/analysis_service.py`, `Backend/app/config.py`,
`Backend/app/models/arbitrage.py`).

Python floats are modelled as exact rationals (`ℚ`), Python ints as `ℤ`.
Python's builtin `round` (banker's rounding, round-half-to-even) is modelled
by `roundHalfEven`; `round(x, n)` by `pyRound`.  Operations that can raise a
Python exception are modelled in `Except PyError`; every other division in
the translated code has a provably nonzero denominator on the branch where
it occurs (established by lemmas below), so it is modelled with total
field division.
-/

/-- Python runtime errors that the translated code can actually raise:
`ZeroDivisionError` (division by zero) and `AttributeError` (attribute
lookup on an object that lacks the attribute). -/
inductive PyError where
  | zeroDivisionError
  | attributeError
deriving DecidableEq, Repr

/-- Python's builtin `round` on a rational: round half to even. -/
def roundHalfEven (q : ℚ) : ℤ :=
  if q - ⌊q⌋ < 1/2 then ⌊q⌋
  else if 1/2 < q - ⌊q⌋ then ⌊q⌋ + 1
  else if ⌊q⌋ % 2 = 0 then ⌊q⌋ else ⌊q⌋ + 1

/-- Python's `round(x, n)` for `n` decimal places. -/
def pyRound (q : ℚ) (n : ℕ) : ℚ :=
  (roundHalfEven (q * 10 ^ n) : ℚ) / 10 ^ n

/-- Python's `str.lower()` (ASCII case folding, which is all the code relies
on: market-type keys are ASCII). -/
def str_lower (s : String) : String := ⟨s.data.map Char.toLower⟩

/-- The arbitrage-relevant fields of `Settings` (config.py lines 25-55). -/
structure Settings where
  min_confidence : ℚ
  bankroll : ℤ
  kelly_fraction : ℚ
  bankroll_cap_pct : ℚ
  min_profit_floor : ℤ
  trigger_threshold : ℚ
  sensitivity_moneyline : ℤ
  sensitivity_spread : ℤ
  sensitivity_points_total : ℤ
  profit_cap : ℚ
  arb_risk_cap : ℚ
  exposure_cap : ℤ
  weight_confidence : ℚ
  weight_arb_validity : ℚ
  weight_mkt_impact : ℚ
deriving DecidableEq, Repr

/-- The default configuration values of config.py. -/
def defaultSettings : Settings where
  min_confidence := 0.60
  bankroll := 100000
  kelly_fraction := 0.25
  bankroll_cap_pct := 0.10
  min_profit_floor := 5
  trigger_threshold := 0.005
  sensitivity_moneyline := 2000000
  sensitivity_spread := 1500000
  sensitivity_points_total := 1000000
  profit_cap := 0.05
  arb_risk_cap := 0.10
  exposure_cap := 200
  weight_confidence := 0.40
  weight_arb_validity := 0.35
  weight_mkt_impact := 0.25

/-- models/arbitrage.py `MarketInput`. -/
structure MarketInput where
  market_type : String
  confidence : ℚ
  bookmaker_1 : String
  bookmaker_2 : String
  price_1 : ℤ
  price_2 : ℤ
  open_price_1 : Option ℤ
  open_price_2 : Option ℤ
  prediction : String
deriving DecidableEq, Repr

/-- models/arbitrage.py `PredictionInput`. -/
structure PredictionInput where
  category : String
  date : String
  home_team : String
  away_team : String
  markets : List MarketInput
deriving DecidableEq, Repr

/-- models/arbitrage.py `SportsbookEntry`. -/
structure SportsbookEntry where
  name : String
  odds : ℤ
  stake : ℤ
deriving DecidableEq, Repr

/-- models/arbitrage.py `ArbitrageOpportunity`.  Note: this model defines no
`total_stake` field — PRD v3 replaced it by `optimal_volume`, and
tests/test_arbitrage.py asserts its absence from serialized output. -/
structure ArbitrageOpportunity where
  category : String
  date : String
  home_team : String
  away_team : String
  market_type : String
  confidence : ℚ
  profit_score : ℚ
  risk_score : ℚ
  optimal_volume : ℤ
  stake_book1 : ℤ
  stake_book2 : ℤ
  guaranteed_profit : ℤ
  line_movement : ℚ
  market_ceiling : ℤ
  kelly_stake : ℤ
  sportsbooks : List SportsbookEntry
deriving DecidableEq, Repr

/-- models/arbitrage.py `RiskDistribution`. -/
structure RiskDistribution where
  low : ℕ
  moderate : ℕ
  elevated : ℕ
  high : ℕ
deriving DecidableEq, Repr

/-- models/arbitrage.py `PortfolioAnalysis`. -/
structure PortfolioAnalysis where
  total_opportunities : ℕ
  confirmed_arbs : ℕ
  value_bets : ℕ
  total_capital_required : ℤ
  expected_total_profit : ℤ
  avg_profit_score : ℚ
  avg_risk_score : ℚ
  risk_distribution : RiskDistribution
  best_opportunity : Option ArbitrageOpportunity
  ranked_opportunities : List ArbitrageOpportunity
deriving DecidableEq, Repr

/-- arbitrage_service.implied_prob (lines 31-35).  Total: on the positive
branch the denominator is `p + 100 > 100`, on the other branch it is
`|p| + 100 ≥ 100`, so Python's division never raises here. -/
def implied_prob (p : ℤ) : ℚ :=
  if p > 0 then 100 / ((p : ℚ) + 100)
  else (p.natAbs : ℚ) / ((p.natAbs : ℚ) + 100)

/-- arbitrage_service.to_decimal (lines 38-42).  On the non-positive branch
Python divides by `abs(p)`, which raises `ZeroDivisionError` when `p = 0`. -/
def to_decimal (p : ℤ) : Except PyError ℚ :=
  if p > 0 then .ok ((p : ℚ) / 100 + 1)
  else if (p.natAbs : ℚ) = 0 then .error .zeroDivisionError
  else .ok (100 / (p.natAbs : ℚ) + 1)

/-- arbitrage_service._get_sensitivity (lines 49-58):
`_SENSITIVITY_MAP.get(market_type.lower(), "sensitivity_moneyline")` —
case-insensitive lookup with a moneyline fallback; the fetched settings
attribute always exists, so the `getattr` never raises. -/
def _get_sensitivity (s : Settings) (market_type : String) : ℤ :=
  match str_lower market_type with
  | "moneyline" => s.sensitivity_moneyline
  | "spread" => s.sensitivity_spread
  | "points_total" => s.sensitivity_points_total
  | _ => s.sensitivity_moneyline

/-- arbitrage_service._line_movement (lines 61-72). -/
def _line_movement (m : MarketInput) : ℚ :=
  let open1 := m.open_price_1.getD m.price_1
  let open2 := m.open_price_2.getD m.price_2
  let move1 := |implied_prob m.price_1 - implied_prob open1|
  let move2 := |implied_prob m.price_2 - implied_prob open2|
  max move1 move2

/-- arbitrage_service._market_ceiling (lines 75-84). -/
def _market_ceiling (s : Settings) (line_mov : ℚ) (market_type : String) : ℤ :=
  let sensitivity := _get_sensitivity s market_type
  let headroom := max (s.trigger_threshold - line_mov * 0.5) 0.001
  roundHalfEven (headroom * (sensitivity : ℚ))

/-- arbitrage_service._kelly_stake (lines 87-101). -/
def _kelly_stake (s : Settings) (arb_margin dec1 dec2 : ℚ) : ℤ :=
  if arb_margin ≤ 0 then 0
  else
    let binding_side := min dec1 dec2
    if binding_side - 1 = 0 then 0
    else
      let full_kelly := arb_margin / (binding_side - 1)
      roundHalfEven (full_kelly * s.kelly_fraction * (s.bankroll : ℚ))

/-- `arb_sum` of _process_market line 132. -/
def _arb_sum (dec1 dec2 : ℚ) : ℚ := 1 / dec1 + 1 / dec2

/-- `arb_margin` of _process_market line 133. -/
def _arb_margin (dec1 dec2 : ℚ) : ℚ := 1 - _arb_sum dec1 dec2

/-- `bankroll_cap` of _process_market line 145. -/
def _bankroll_cap (s : Settings) : ℤ :=
  roundHalfEven ((s.bankroll : ℚ) * s.bankroll_cap_pct)

/-- `optimal_volume` of _process_market lines 147-151 (Step 4: three-way
minimum when the Kelly stake is positive, else zero). -/
def _optimal_volume (s : Settings) (m : MarketInput) (dec1 dec2 : ℚ) : ℤ :=
  let ceiling := _market_ceiling s (_line_movement m) m.market_type
  let kelly := _kelly_stake s (_arb_margin dec1 dec2) dec1 dec2
  if 0 < kelly then min (min kelly ceiling) (_bankroll_cap s) else 0

/-- `stake1` of _process_market lines 154-158 (proportional split). -/
def _stake1 (s : Settings) (m : MarketInput) (dec1 dec2 : ℚ) : ℤ :=
  if 0 < _optimal_volume s m dec1 dec2 ∧ 0 < _arb_sum dec1 dec2 then
    roundHalfEven ((_optimal_volume s m dec1 dec2 : ℚ) * (1 / dec1) / _arb_sum dec1 dec2)
  else 0

/-- `stake2` of _process_market lines 154-159 (proportional split). -/
def _stake2 (s : Settings) (m : MarketInput) (dec1 dec2 : ℚ) : ℤ :=
  if 0 < _optimal_volume s m dec1 dec2 ∧ 0 < _arb_sum dec1 dec2 then
    roundHalfEven ((_optimal_volume s m dec1 dec2 : ℚ) * (1 / dec2) / _arb_sum dec1 dec2)
  else 0

/-- `guaranteed_profit` of _process_market lines 161-163. -/
def _guaranteed_profit (s : Settings) (m : MarketInput) (dec1 dec2 : ℚ) : ℤ :=
  if 0 < _optimal_volume s m dec1 dec2 then
    roundHalfEven (min ((_stake1 s m dec1 dec2 : ℚ) * dec1) ((_stake2 s m dec1 dec2 : ℚ) * dec2)
      - (_optimal_volume s m dec1 dec2 : ℚ))
  else 0

/-- `profit_score` of _process_market line 176. -/
def _profit_score (s : Settings) (dec1 dec2 : ℚ) : ℚ :=
  if 0 < _arb_margin dec1 dec2 then
    pyRound (min (_arb_margin dec1 dec2 / s.profit_cap) 1) 4
  else 0

/-- `risk_score` of _process_market lines 178-197 (three weighted risk
factors). -/
def _risk_score (s : Settings) (m : MarketInput) (dec1 dec2 : ℚ) : ℚ :=
  let confidence_risk := 1 - m.confidence
  let total_implied := implied_prob m.price_1 + implied_prob m.price_2
  let arb_validity_risk :=
    if total_implied < 1 then 0
    else min ((total_implied - 1) / s.arb_risk_cap) 1
  let exposureR :=
    if 0 < _guaranteed_profit s m dec1 dec2 then
      (_optimal_volume s m dec1 dec2 : ℚ) / (_guaranteed_profit s m dec1 dec2 : ℚ)
    else (s.exposure_cap : ℚ)
  let market_impact_risk := min (exposureR / (s.exposure_cap : ℚ)) 1
  pyRound (s.weight_confidence * confidence_risk
    + s.weight_arb_validity * arb_validity_risk
    + s.weight_mkt_impact * market_impact_risk) 4

/-- arbitrage_service._process_market lines 129-219: everything after the
two decimal-odds conversions succeed (pure arithmetic; no further failure
point — `dec1`, `dec2` and `arb_sum` are nonzero for every value `to_decimal`
can return, and the remaining divisions are guarded by the source's own
positivity checks).  The quantities are the named definitions above, one per
local variable of the source. -/
def _score_market (s : Settings) (m : MarketInput)
    (category date home_team away_team : String) (dec1 dec2 : ℚ) :
    Option ArbitrageOpportunity :=
  if _guaranteed_profit s m dec1 dec2 < s.min_profit_floor then none
  else
    some
      { category := category
        date := date
        home_team := home_team
        away_team := away_team
        market_type := m.market_type
        confidence := m.confidence
        profit_score := _profit_score s dec1 dec2
        risk_score := _risk_score s m dec1 dec2
        optimal_volume := _optimal_volume s m dec1 dec2
        stake_book1 := _stake1 s m dec1 dec2
        stake_book2 := _stake2 s m dec1 dec2
        guaranteed_profit := _guaranteed_profit s m dec1 dec2
        line_movement := pyRound (_line_movement m) 6
        market_ceiling := _market_ceiling s (_line_movement m) m.market_type
        kelly_stake := _kelly_stake s (_arb_margin dec1 dec2) dec1 dec2
        sportsbooks :=
          [{ name := m.bookmaker_1, odds := m.price_1, stake := _stake1 s m dec1 dec2 },
           { name := m.bookmaker_2, odds := m.price_2, stake := _stake2 s m dec1 dec2 }] }

/-- arbitrage_service._process_market (lines 108-219).  `None` models the
source's soft drops (`return None`); the error case models the
`ZeroDivisionError` escaping from `to_decimal` on a zero price. -/
def _process_market (s : Settings) (m : MarketInput)
    (category date home_team away_team : String) :
    Except PyError (Option ArbitrageOpportunity) :=
  if m.price_1 = m.price_2 then .ok none
  else if m.bookmaker_1 = m.bookmaker_2 then .ok none
  else
    match to_decimal m.price_1 with
    | .error e => .error e
    | .ok dec1 =>
      match to_decimal m.price_2 with
      | .error e => .error e
      | .ok dec2 => .ok (_score_market s m category date home_team away_team dec1 dec2)

/-- The market loop of arbitrage_service.process_prediction (lines 234-250):
markets below the confidence threshold are skipped before `_process_market`
is invoked; accepted opportunities are collected in order; an exception
raised while scoring one market aborts the whole loop (there is no
try/except around the loop body in the source). -/
def _process_markets (s : Settings) (category date home_team away_team : String) :
    List MarketInput → Except PyError (List ArbitrageOpportunity)
  | [] => .ok []
  | m :: rest =>
    if m.confidence < s.min_confidence then
      _process_markets s category date home_team away_team rest
    else do
      let r ← _process_market s m category date home_team away_team
      let tail ← _process_markets s category date home_team away_team rest
      match r with
      | some o => pure (o :: tail)
      | none => pure tail

/-- arbitrage_service.process_prediction (lines 226-257). -/
def process_prediction (s : Settings) (p : PredictionInput) :
    Except PyError (List ArbitrageOpportunity) :=
  _process_markets s p.category p.date p.home_team p.away_team p.markets

/-- Python attribute access `o.total_stake` on an `ArbitrageOpportunity`.
The model defines no such field (PRD v3 removed it), so the lookup raises
`AttributeError` for every opportunity. -/
def total_stake (_o : ArbitrageOpportunity) : Except PyError ℤ :=
  .error .attributeError

/-- analysis_service._risk_bucket (lines 29-36). -/
def _risk_bucket (risk_score : ℚ) : String :=
  if risk_score ≤ 0.25 then "low"
  else if risk_score ≤ 0.50 then "moderate"
  else if risk_score ≤ 0.75 then "elevated"
  else "high"

/-- The sort key order of analysis_service._rank (line 44): Python's
`sorted(..., key=lambda o: (-o.profit_score, o.risk_score))` sorts by the
lexicographic order on the key tuples. -/
def _rankLE (a b : ArbitrageOpportunity) : Bool :=
  decide (b.profit_score < a.profit_score ∨
    (a.profit_score = b.profit_score ∧ a.risk_score ≤ b.risk_score))

/-- analysis_service._rank (lines 39-44); Python's `sorted` is a stable sort,
modelled by the stable `List.mergeSort`. -/
def _rank (opportunities : List ArbitrageOpportunity) : List ArbitrageOpportunity :=
  opportunities.mergeSort _rankLE

/-- analysis_service.analyze (lines 47-100), translated statement by
statement.  `sum(o.total_stake for o in opportunities)` (line 72) performs
the failing `total_stake` attribute access on each element. -/
def analyze (opportunities : List ArbitrageOpportunity) :
    Except PyError PortfolioAnalysis := do
  if opportunities.isEmpty then
    return { total_opportunities := 0
             confirmed_arbs := 0
             value_bets := 0
             total_capital_required := 0
             expected_total_profit := 0
             avg_profit_score := 0
             avg_risk_score := 0
             risk_distribution := { low := 0, moderate := 0, elevated := 0, high := 0 }
             best_opportunity := none
             ranked_opportunities := [] }
  let ranked := _rank opportunities
  let confirmed_arbs := (opportunities.filter fun o => decide (0 < o.profit_score)).length
  let value_bets := opportunities.length - confirmed_arbs
  let stakes ← opportunities.mapM total_stake
  let total_capital := stakes.sum
  let total_profit := (opportunities.map fun o => o.guaranteed_profit).sum
  let avg_profit_score :=
    pyRound ((opportunities.map fun o => o.profit_score).sum / (opportunities.length : ℚ)) 4
  let avg_risk_score :=
    pyRound ((opportunities.map fun o => o.risk_score).sum / (opportunities.length : ℚ)) 4
  return { total_opportunities := opportunities.length
           confirmed_arbs := confirmed_arbs
           value_bets := value_bets
           total_capital_required := total_capital
           expected_total_profit := total_profit
           avg_profit_score := avg_profit_score
           avg_risk_score := avg_risk_score
           risk_distribution :=
             { low := (opportunities.filter fun o => decide (_risk_bucket o.risk_score = "low")).length
               moderate := (opportunities.filter fun o => decide (_risk_bucket o.risk_score = "moderate")).length
               elevated := (opportunities.filter fun o => decide (_risk_bucket o.risk_score = "elevated")).length
               high := (opportunities.filter fun o => decide (_risk_bucket o.risk_score = "high")).length }
           best_opportunity := ranked.head?
           ranked_opportunities := ranked }

/-- The domain constraints the specification places on a `ScoringConfig`
(spec section 3): positive bankroll and caps, fractional Kelly and bankroll
cap in `(0,1]`, nonnegative profit floor, positive trigger threshold and
sensitivities, and risk weights summing to exactly 1.0 (the only weight
condition `Settings.validate_risk_weights` checks). -/
def ValidConfig (s : Settings) : Prop :=
  0 < s.bankroll ∧ 0 < s.kelly_fraction ∧ s.kelly_fraction ≤ 1 ∧
  0 < s.bankroll_cap_pct ∧ s.bankroll_cap_pct ≤ 1 ∧ 0 ≤ s.min_profit_floor ∧
  0 < s.trigger_threshold ∧ 0 < s.sensitivity_moneyline ∧ 0 < s.sensitivity_spread ∧
  0 < s.sensitivity_points_total ∧ 0 < s.profit_cap ∧ 0 < s.arb_risk_cap ∧
  0 < s.exposure_cap ∧
  s.weight_confidence + s.weight_arb_validity + s.weight_mkt_impact = 1

instance (s : Settings) : Decidable (ValidConfig s) := by
  unfold ValidConfig
  infer_instance

/-- The spread market of the reference sample payload (spec section 8,
Scenario A, without opening prices): +140 / +135 at two distinct books,
confidence 0.65. -/
def sampleMarket : MarketInput where
  market_type := "spread"
  confidence := 0.65
  bookmaker_1 := "DraftKings"
  bookmaker_2 := "FanDuel"
  price_1 := 140
  price_2 := 135
  open_price_1 := none
  open_price_2 := none
  prediction := "home_covers"

/-- A one-market prediction payload around `sampleMarket`. -/
def samplePrediction : PredictionInput where
  category := "basketball"
  date := "2023-01-10T19:00:00Z"
  home_team := "Houston Rockets"
  away_team := "New York Knicks"
  markets := [sampleMarket]

/-- The opportunity the scorer produces for `sampleMarket` under the default
configuration (exact rational arithmetic). -/
def sampleOpp : ArbitrageOpportunity where
  category := "basketball"
  date := "2023-01-10T19:00:00Z"
  home_team := "Houston Rockets"
  away_team := "New York Knicks"
  market_type := "spread"
  confidence := 0.65
  profit_score := 1
  risk_score := 1467/10000
  optimal_volume := 2922
  stake_book1 := 1446
  stake_book2 := 1476
  guaranteed_profit := 547
  line_movement := 0
  market_ceiling := 7500
  kelly_stake := 2922
  sportsbooks :=
    [{ name := "DraftKings", odds := 140, stake := 1446 },
     { name := "FanDuel", odds := 135, stake := 1476 }]

/-- `sampleMarket` with confidence exactly at the default threshold. -/
def atThresholdMarket : MarketInput := { sampleMarket with confidence := 0.60 }

/-- A market with a zero price on side 1 (undefined American odds). -/
def zeroPriceMarket : MarketInput := { sampleMarket with price_1 := 0, price_2 := -110 }

/-- A configuration whose risk weights sum to 1.0 and whose caps are all
positive, but with two negative weights. -/
def negWeightSettings : Settings :=
  { defaultSettings with
      weight_confidence := 3
      weight_arb_validity := -1
      weight_mkt_impact := -1 }

/-- `sampleMarket` with zero model confidence. -/
def zeroConfMarket : MarketInput := { sampleMarket with confidence := 0 }

/-- The opportunity produced for `zeroConfMarket` under `negWeightSettings`:
identical to `sampleOpp` except for the confidence pass-through and the risk
score, which exceeds 1. -/
def negWeightOpp : ArbitrageOpportunity :=
  { sampleOpp with confidence := 0, risk_score := 29733/10000 }

/-- The risk score of a scored market, or 0 if the market was dropped or
scoring raised. -/
def riskOf (r : Except PyError (Option ArbitrageOpportunity)) : ℚ :=
  match r with
  | .ok (some o) => o.risk_score
  | _ => 0

/-- An all-zero opportunity record (used as a concrete input to the
aggregator). -/
def dummyOpp : ArbitrageOpportunity where
  category := ""
  date := ""
  home_team := ""
  away_team := ""
  market_type := ""
  confidence := 0
  profit_score := 0
  risk_score := 0
  optimal_volume := 0
  stake_book1 := 0
  stake_book2 := 0
  guaranteed_profit := 0
  line_movement := 0
  market_ceiling := 0
  kelly_stake := 0
  sportsbooks := []

/-- The all-zero summary `analyze` returns on empty input. -/
def emptyAnalysis : PortfolioAnalysis where
  total_opportunities := 0
  confirmed_arbs := 0
  value_bets := 0
  total_capital_required := 0
  expected_total_profit := 0
  avg_profit_score := 0
  avg_risk_score := 0
  risk_distribution := { low := 0, moderate := 0, elevated := 0, high := 0 }
  best_opportunity := none
  ranked_opportunities := []

/-! ### Basic facts about the rounding model -/

/-- Banker's rounding moves a value by at most one half. -/
theorem abs_roundHalfEven_sub (q : ℚ) : |(roundHalfEven q : ℚ) - q| ≤ 1/2 := by
  have h1 : (⌊q⌋ : ℚ) ≤ q := Int.floor_le q
  have h2 : q < ⌊q⌋ + 1 := Int.lt_floor_add_one q
  unfold roundHalfEven
  split_ifs with ha hb hc <;> (rw [abs_le]; constructor <;> push_cast <;> linarith)

/-- A value strictly within one half of an integer rounds to that integer. -/
theorem roundHalfEven_eq_of_abs_lt {q : ℚ} {n : ℤ} (h : |q - (n : ℚ)| < 1/2) :
    roundHalfEven q = n := by
  rcases abs_lt.mp h with ⟨hl, hr⟩
  rcases le_or_lt (n : ℚ) q with hq | hq
  · have hf : ⌊q⌋ = n := by
      rw [Int.floor_eq_iff]
      refine ⟨hq, by linarith⟩
    unfold roundHalfEven
    rw [hf, if_pos (by linarith)]
  · have hf : ⌊q⌋ = n - 1 := by
      rw [Int.floor_eq_iff]
      constructor <;> push_cast <;> linarith
    unfold roundHalfEven
    rw [hf, if_neg (by push_cast; linarith), if_pos (by push_cast; linarith)]
    omega

/-- Rounding an integer is the identity. -/
theorem roundHalfEven_intCast (n : ℤ) : roundHalfEven (n : ℚ) = n :=
  roundHalfEven_eq_of_abs_lt (by simp)

/-- Rounding a nonnegative value yields a nonnegative integer. -/
theorem roundHalfEven_nonneg {q : ℚ} (hq : 0 ≤ q) : 0 ≤ roundHalfEven q := by
  have h := abs_roundHalfEven_sub q
  rcases abs_le.mp h with ⟨h1, _⟩
  have : (-1 : ℚ) < (roundHalfEven q : ℚ) := by linarith
  have : (-1 : ℤ) < roundHalfEven q := by exact_mod_cast this
  omega

/-- Rounding two parts of an integer total conserves the total within one. -/
theorem roundHalfEven_pair_conserve (x y : ℚ) (V : ℤ) (h : x + y = (V : ℚ)) :
    |roundHalfEven x + roundHalfEven y - V| ≤ 1 := by
  have hx := abs_roundHalfEven_sub x
  have hy := abs_roundHalfEven_sub y
  have hcast : |((roundHalfEven x + roundHalfEven y - V : ℤ) : ℚ)| ≤ 1 := by
    have hsum : ((roundHalfEven x : ℚ) + (roundHalfEven y : ℚ) - (V : ℚ)) =
        ((roundHalfEven x : ℚ) - x) + ((roundHalfEven y : ℚ) - y) := by
      rw [← h]; ring
    push_cast
    rw [hsum]
    calc |((roundHalfEven x : ℚ) - x) + ((roundHalfEven y : ℚ) - y)|
        ≤ |(roundHalfEven x : ℚ) - x| + |(roundHalfEven y : ℚ) - y| := abs_add _ _
      _ ≤ 1 := by linarith
  exact_mod_cast hcast

/-- Python's `round(q, n)` stays nonnegative on nonnegative input. -/
theorem pyRound_nonneg {q : ℚ} (hq : 0 ≤ q) (n : ℕ) : 0 ≤ pyRound q n := by
  unfold pyRound
  have h := abs_roundHalfEven_sub (q * 10 ^ n)
  rcases abs_le.mp h with ⟨h1, _⟩
  have hq10 : 0 ≤ q * 10 ^ n := by positivity
  have hgt : (-1 : ℚ) < (roundHalfEven (q * 10 ^ n) : ℚ) := by linarith
  have hgtz : (-1 : ℤ) < roundHalfEven (q * 10 ^ n) := by exact_mod_cast hgt
  have h0 : (0 : ℚ) ≤ (roundHalfEven (q * 10 ^ n) : ℚ) := by
    have : (0 : ℤ) ≤ roundHalfEven (q * 10 ^ n) := by omega
    exact_mod_cast this
  positivity

/-- Python's `round(q, n)` stays at most one on input at most one. -/
theorem pyRound_le_one {q : ℚ} (hq : q ≤ 1) (n : ℕ) : pyRound q n ≤ 1 := by
  unfold pyRound
  have h := abs_roundHalfEven_sub (q * 10 ^ n)
  rcases abs_le.mp h with ⟨_, h2⟩
  have h10 : (0 : ℚ) < 10 ^ n := by positivity
  have hmul : q * 10 ^ n ≤ 10 ^ n := by
    calc q * 10 ^ n ≤ 1 * 10 ^ n := by
          exact mul_le_mul_of_nonneg_right hq (le_of_lt h10)
      _ = 10 ^ n := one_mul _
  have hlt : (roundHalfEven (q * 10 ^ n) : ℚ) < (10 : ℚ) ^ n + 1 := by linarith
  have hltz : roundHalfEven (q * 10 ^ n) < (10 : ℤ) ^ n + 1 := by exact_mod_cast hlt
  have hle : (roundHalfEven (q * 10 ^ n) : ℚ) ≤ (10 : ℚ) ^ n := by
    have : roundHalfEven (q * 10 ^ n) ≤ (10 : ℤ) ^ n := by omega
    exact_mod_cast this
  rw [div_le_one h10]
  exact hle

/-! ### Basic facts about the odds converter -/

/-- Every decimal-odds value `to_decimal` can return exceeds one.  (Each
branch adds one to a strictly positive quotient.) -/
theorem to_decimal_ok_gt_one {p : ℤ} {d : ℚ} (h : to_decimal p = .ok d) : 1 < d := by
  unfold to_decimal at h
  split_ifs at h with hp hz
  · rw [Except.ok.injEq] at h
    subst h
    have hp1 : (1 : ℚ) ≤ (p : ℚ) := by exact_mod_cast hp
    have : (0 : ℚ) < (p : ℚ) / 100 := by positivity
    linarith
  · rw [Except.ok.injEq] at h
    subst h
    have hzq : (0 : ℚ) < (p.natAbs : ℚ) :=
      lt_of_le_of_ne (by positivity) (fun hc => hz hc.symm)
    have : (0 : ℚ) < 100 / (p.natAbs : ℚ) := by positivity
    linarith

/-- `to_decimal` succeeds exactly on nonzero prices. -/
theorem to_decimal_zero : to_decimal 0 = .error .zeroDivisionError := by
  simp [to_decimal]

/-- `to_decimal` on a nonzero price returns a value (no exception). -/
theorem to_decimal_ne_zero_ok {p : ℤ} (hp : p ≠ 0) :
    ∃ d, to_decimal p = .ok d := by
  unfold to_decimal
  split_ifs with h1 h2
  · exact ⟨_, rfl⟩
  · exfalso
    have : p.natAbs = 0 := by exact_mod_cast h2
    omega
  · exact ⟨_, rfl⟩

/-! ### Inversion lemmas for the scorer -/

/-- Unfolding an accepted market: every field of the produced opportunity is
the corresponding named quantity of `_score_market`, and the profit floor
has been checked. -/
theorem _score_market_eq {s : Settings} {m : MarketInput} {cat dt ht aw : String}
    {dec1 dec2 : ℚ} {opp : ArbitrageOpportunity}
    (h : _score_market s m cat dt ht aw dec1 dec2 = some opp) :
    opp.confidence = m.confidence ∧
    opp.kelly_stake = _kelly_stake s (_arb_margin dec1 dec2) dec1 dec2 ∧
    opp.market_ceiling = _market_ceiling s (_line_movement m) m.market_type ∧
    opp.optimal_volume = _optimal_volume s m dec1 dec2 ∧
    opp.stake_book1 = _stake1 s m dec1 dec2 ∧
    opp.stake_book2 = _stake2 s m dec1 dec2 ∧
    opp.guaranteed_profit = _guaranteed_profit s m dec1 dec2 ∧
    s.min_profit_floor ≤ opp.guaranteed_profit ∧
    opp.profit_score = _profit_score s dec1 dec2 ∧
    opp.risk_score = _risk_score s m dec1 dec2 := by
  unfold _score_market at h
  split at h
  · exact absurd h (by simp)
  · rename_i hfloor
    rw [Option.some.injEq] at h
    subst h
    exact ⟨rfl, rfl, rfl, rfl, rfl, rfl, rfl, not_lt.mp hfloor, rfl, rfl⟩

/-- Unfolding a successful `_process_market`: the degeneracy checks passed,
both odds conversions succeeded, and the scoring stage produced the
opportunity. -/
theorem _process_market_ok_some {s : Settings} {m : MarketInput}
    {cat dt ht aw : String} {opp : ArbitrageOpportunity}
    (h : _process_market s m cat dt ht aw = .ok (some opp)) :
    m.price_1 ≠ m.price_2 ∧ m.bookmaker_1 ≠ m.bookmaker_2 ∧
    ∃ dec1 dec2, to_decimal m.price_1 = .ok dec1 ∧ to_decimal m.price_2 = .ok dec2 ∧
      _score_market s m cat dt ht aw dec1 dec2 = some opp := by
  unfold _process_market at h
  split at h
  · exact absurd h (by simp)
  · split at h
    · exact absurd h (by simp)
    · rename_i hp hb
      split at h
      · exact absurd h (by simp)
      · rename_i dec1 heq1
        split at h
        · exact absurd h (by simp)
        · rename_i dec2 heq2
          rw [Except.ok.injEq] at h
          exact ⟨hp, hb, dec1, dec2, heq1, heq2, h⟩

/-! ### Monadic plumbing for the Except model -/

theorem exceptErrorBind {ε α β : Type} (e : ε) (f : α → Except ε β) :
    (Except.error e >>= f) = Except.error e := rfl

theorem exceptOkBind {ε α β : Type} (a : α) (f : α → Except ε β) :
    (Except.ok a >>= f) = f a := rfl

theorem exceptPure {ε α : Type} (a : α) : (pure a : Except ε α) = Except.ok a := rfl

theorem exceptMapError {ε α β : Type} (e : ε) (f : α → β) :
    (f <$> (Except.error e : Except ε α)) = Except.error e := rfl

/-! ### Structural facts about the named scorer quantities -/

/-- The sum of the two reciprocal decimal odds is positive whenever both
decimal odds exceed one. -/
theorem _arb_sum_pos {dec1 dec2 : ℚ} (h1 : 1 < dec1) (h2 : 1 < dec2) :
    0 < _arb_sum dec1 dec2 := by
  have hd1 : (0 : ℚ) < dec1 := by linarith
  have hd2 : (0 : ℚ) < dec2 := by linarith
  unfold _arb_sum
  positivity

/-- Every market type maps to one of the three positive sensitivities. -/
theorem _get_sensitivity_pos {s : Settings} (hv : ValidConfig s) (mt : String) :
    0 < _get_sensitivity s mt := by
  obtain ⟨-, -, -, -, -, -, -, hml, hsp, hpt, -, -, -, -⟩ := hv
  unfold _get_sensitivity
  split
  · exact hml
  · exact hsp
  · exact hpt
  · exact hml

/-- The market ceiling is nonnegative under a valid configuration (the
headroom is floored at 0.001 and the sensitivity is positive). -/
theorem _market_ceiling_nonneg {s : Settings} (hv : ValidConfig s)
    (lm : ℚ) (mt : String) : 0 ≤ _market_ceiling s lm mt := by
  have hs := _get_sensitivity_pos hv mt
  have hsq : (0 : ℚ) < ((_get_sensitivity s mt : ℤ) : ℚ) := by exact_mod_cast hs
  simp only [_market_ceiling]
  apply roundHalfEven_nonneg
  have hh : (0 : ℚ) < max (s.trigger_threshold - lm * 0.5) 0.001 :=
    lt_of_lt_of_le (by norm_num) (le_max_right _ _)
  positivity

/-- The bankroll cap is nonnegative under a valid configuration. -/
theorem _bankroll_cap_nonneg {s : Settings} (hv : ValidConfig s) :
    0 ≤ _bankroll_cap s := by
  obtain ⟨hb, -, -, hbc, -, -, -, -, -, -, -, -, -, -⟩ := hv
  have hbq : (0 : ℚ) < ((s.bankroll : ℤ) : ℚ) := by exact_mod_cast hb
  unfold _bankroll_cap
  apply roundHalfEven_nonneg
  positivity

/-- The optimal volume is nonnegative under a valid configuration. -/
theorem _optimal_volume_nonneg {s : Settings} (hv : ValidConfig s)
    (m : MarketInput) (dec1 dec2 : ℚ) : 0 ≤ _optimal_volume s m dec1 dec2 := by
  have hc := _market_ceiling_nonneg hv (_line_movement m) m.market_type
  have hcap := _bankroll_cap_nonneg hv
  simp only [_optimal_volume]
  split
  · rename_i hk
    simp only [le_min_iff]
    exact ⟨⟨le_of_lt hk, hc⟩, hcap⟩
  · exact le_refl 0

/-- Stake conservation at the level of the named quantities: the two rounded
stakes differ from the optimal volume by at most one dollar. -/
theorem _stake_conserve {s : Settings} (hv : ValidConfig s) (m : MarketInput)
    {dec1 dec2 : ℚ} (h1 : 1 < dec1) (h2 : 1 < dec2) :
    |_stake1 s m dec1 dec2 + _stake2 s m dec1 dec2 - _optimal_volume s m dec1 dec2| ≤ 1 := by
  have hS : 0 < _arb_sum dec1 dec2 := _arb_sum_pos h1 h2
  by_cases hV : 0 < _optimal_volume s m dec1 dec2
  · have hcond : 0 < _optimal_volume s m dec1 dec2 ∧ 0 < _arb_sum dec1 dec2 := ⟨hV, hS⟩
    unfold _stake1 _stake2
    rw [if_pos hcond, if_pos hcond]
    apply roundHalfEven_pair_conserve
    have hd1 : dec1 ≠ 0 := by positivity
    have hd2 : dec2 ≠ 0 := by positivity
    have hSne : _arb_sum dec1 dec2 ≠ 0 := ne_of_gt hS
    unfold _arb_sum at hSne ⊢
    field_simp
    ring
  · have hV0 : _optimal_volume s m dec1 dec2 = 0 :=
      le_antisymm (not_lt.mp hV) (_optimal_volume_nonneg hv m dec1 dec2)
    unfold _stake1 _stake2
    rw [if_neg (fun hc => hV hc.1), if_neg (fun hc => hV hc.1), hV0]
    simp

/-! ### Concrete evaluation of the scorer on the sample spread market -/

theorem pyRound_eq_of {q v : ℚ} {n : ℕ} {z : ℤ} (h1 : |q * 10 ^ n - (z : ℚ)| < 1/2)
    (h2 : (z : ℚ) / 10 ^ n = v) : pyRound q n = v := by
  unfold pyRound
  rw [roundHalfEven_eq_of_abs_lt h1, h2]

theorem implied_prob_140 : implied_prob 140 = 5/12 := by norm_num [implied_prob]

theorem implied_prob_135 : implied_prob 135 = 20/47 := by norm_num [implied_prob]

theorem to_decimal_140 : to_decimal 140 = .ok (12/5) := by norm_num [to_decimal]

theorem to_decimal_135 : to_decimal 135 = .ok (47/20) := by norm_num [to_decimal]

theorem sample_line_movement : _line_movement sampleMarket = 0 := by
  simp [_line_movement, sampleMarket]

theorem sample_ceiling : _market_ceiling defaultSettings 0 "spread" = 7500 := by
  have hs : _get_sensitivity defaultSettings "spread" = 1500000 := by decide
  simp only [_market_ceiling, hs]
  exact roundHalfEven_eq_of_abs_lt (by norm_num [defaultSettings, max_def])

theorem sample_arb_sum : _arb_sum (12/5) (47/20) = 475/564 := by norm_num [_arb_sum]

theorem sample_margin : _arb_margin (12/5) (47/20) = 89/564 := by
  norm_num [_arb_margin, _arb_sum]

theorem sample_kelly : _kelly_stake defaultSettings (89/564) (12/5) (47/20) = 2922 := by
  simp only [_kelly_stake]
  rw [if_neg (by norm_num), if_neg (by norm_num [min_def])]
  exact roundHalfEven_eq_of_abs_lt (by norm_num [abs_lt, min_def, defaultSettings])

theorem sample_cap : _bankroll_cap defaultSettings = 10000 := by
  unfold _bankroll_cap
  exact roundHalfEven_eq_of_abs_lt (by norm_num [defaultSettings])

theorem sample_volume : _optimal_volume defaultSettings sampleMarket (12/5) (47/20) = 2922 := by
  simp only [_optimal_volume, sample_margin, sample_kelly, sample_line_movement]
  rw [show sampleMarket.market_type = "spread" from rfl, sample_ceiling, sample_cap]
  rw [if_pos (by norm_num)]
  norm_num [min_def]

theorem sample_stake1 : _stake1 defaultSettings sampleMarket (12/5) (47/20) = 1446 := by
  unfold _stake1
  rw [sample_volume, sample_arb_sum, if_pos (by norm_num)]
  exact roundHalfEven_eq_of_abs_lt (by norm_num [abs_lt])

theorem sample_stake2 : _stake2 defaultSettings sampleMarket (12/5) (47/20) = 1476 := by
  unfold _stake2
  rw [sample_volume, sample_arb_sum, if_pos (by norm_num)]
  exact roundHalfEven_eq_of_abs_lt (by norm_num [abs_lt])

theorem sample_profit : _guaranteed_profit defaultSettings sampleMarket (12/5) (47/20) = 547 := by
  unfold _guaranteed_profit
  rw [sample_volume, sample_stake1, sample_stake2, if_pos (by norm_num)]
  exact roundHalfEven_eq_of_abs_lt (by norm_num [abs_lt, min_def])

theorem sample_profit_score : _profit_score defaultSettings (12/5) (47/20) = 1 := by
  unfold _profit_score
  rw [sample_margin, if_pos (by norm_num)]
  exact pyRound_eq_of (z := 10000) (by norm_num [min_def, defaultSettings]) (by norm_num)

theorem sample_risk : _risk_score defaultSettings sampleMarket (12/5) (47/20) = 1467/10000 := by
  simp only [_risk_score]
  rw [show sampleMarket.price_1 = (140 : ℤ) from rfl, show sampleMarket.price_2 = (135 : ℤ) from rfl,
    implied_prob_140, implied_prob_135, sample_profit, sample_volume]
  rw [if_pos (show (5 : ℚ)/12 + 20/47 < 1 by norm_num)]
  rw [if_pos (show (0 : ℤ) < 547 by norm_num)]
  exact pyRound_eq_of (z := 1467) (by norm_num [abs_lt, min_def, defaultSettings, sampleMarket]) (by norm_num)

theorem sample_score_eval :
    _score_market defaultSettings sampleMarket "basketball" "2023-01-10T19:00:00Z"
      "Houston Rockets" "New York Knicks" (12/5) (47/20) = some sampleOpp := by
  have hpr0 : pyRound 0 6 = 0 := pyRound_eq_of (z := 0) (by norm_num) (by norm_num)
  unfold _score_market
  rw [sample_profit, if_neg (show ¬((547 : ℤ) < defaultSettings.min_profit_floor) by norm_num [defaultSettings])]
  rw [sample_profit_score, sample_risk, sample_volume, sample_stake1, sample_stake2]
  rw [show _kelly_stake defaultSettings (_arb_margin (12/5) (47/20)) (12/5) (47/20) = 2922 from by
    rw [sample_margin, sample_kelly]]
  rw [sample_line_movement, hpr0]
  rw [show sampleMarket.market_type = "spread" from rfl, sample_ceiling]
  rfl

theorem sample_process :
    _process_market defaultSettings sampleMarket "basketball" "2023-01-10T19:00:00Z"
      "Houston Rockets" "New York Knicks" = .ok (some sampleOpp) := by
  unfold _process_market
  rw [if_neg (show ¬(sampleMarket.price_1 = sampleMarket.price_2) by decide)]
  rw [if_neg (show ¬(sampleMarket.bookmaker_1 = sampleMarket.bookmaker_2) by decide)]
  rw [show sampleMarket.price_1 = (140 : ℤ) from rfl, show sampleMarket.price_2 = (135 : ℤ) from rfl]
  simp only [to_decimal_140, to_decimal_135]
  rw [sample_score_eval]

/-! ### Concrete evaluation under the negative-weight configuration -/

theorem neg_line_movement : _line_movement zeroConfMarket = 0 := by
  simp [_line_movement, zeroConfMarket, sampleMarket]

theorem neg_ceiling : _market_ceiling negWeightSettings 0 "spread" = 7500 := by
  have hs : _get_sensitivity negWeightSettings "spread" = 1500000 := by decide
  simp only [_market_ceiling, hs]
  exact roundHalfEven_eq_of_abs_lt (by norm_num [negWeightSettings, defaultSettings, max_def])

theorem neg_kelly : _kelly_stake negWeightSettings (89/564) (12/5) (47/20) = 2922 := by
  simp only [_kelly_stake]
  rw [if_neg (by norm_num), if_neg (by norm_num [min_def])]
  exact roundHalfEven_eq_of_abs_lt (by norm_num [abs_lt, min_def, negWeightSettings, defaultSettings])

theorem neg_cap : _bankroll_cap negWeightSettings = 10000 := by
  unfold _bankroll_cap
  exact roundHalfEven_eq_of_abs_lt (by norm_num [negWeightSettings, defaultSettings])

theorem neg_volume : _optimal_volume negWeightSettings zeroConfMarket (12/5) (47/20) = 2922 := by
  simp only [_optimal_volume, sample_margin, neg_kelly, neg_line_movement]
  rw [show zeroConfMarket.market_type = "spread" from rfl, neg_ceiling, neg_cap]
  rw [if_pos (by norm_num)]
  norm_num [min_def]

theorem neg_stake1 : _stake1 negWeightSettings zeroConfMarket (12/5) (47/20) = 1446 := by
  unfold _stake1
  rw [neg_volume, sample_arb_sum, if_pos (by norm_num)]
  exact roundHalfEven_eq_of_abs_lt (by norm_num [abs_lt])

theorem neg_stake2 : _stake2 negWeightSettings zeroConfMarket (12/5) (47/20) = 1476 := by
  unfold _stake2
  rw [neg_volume, sample_arb_sum, if_pos (by norm_num)]
  exact roundHalfEven_eq_of_abs_lt (by norm_num [abs_lt])

theorem neg_profit : _guaranteed_profit negWeightSettings zeroConfMarket (12/5) (47/20) = 547 := by
  unfold _guaranteed_profit
  rw [neg_volume, neg_stake1, neg_stake2, if_pos (by norm_num)]
  exact roundHalfEven_eq_of_abs_lt (by norm_num [abs_lt, min_def])

theorem neg_profit_score : _profit_score negWeightSettings (12/5) (47/20) = 1 := by
  unfold _profit_score
  rw [sample_margin, if_pos (by norm_num)]
  exact pyRound_eq_of (z := 10000)
    (by norm_num [min_def, negWeightSettings, defaultSettings]) (by norm_num)

theorem neg_risk : _risk_score negWeightSettings zeroConfMarket (12/5) (47/20) = 29733/10000 := by
  simp only [_risk_score]
  rw [show zeroConfMarket.price_1 = (140 : ℤ) from rfl,
    show zeroConfMarket.price_2 = (135 : ℤ) from rfl,
    implied_prob_140, implied_prob_135, neg_profit, neg_volume]
  rw [if_pos (show (5 : ℚ)/12 + 20/47 < 1 by norm_num)]
  rw [if_pos (show (0 : ℤ) < 547 by norm_num)]
  exact pyRound_eq_of (z := 29733)
    (by norm_num [abs_lt, min_def, negWeightSettings, defaultSettings, zeroConfMarket, sampleMarket])
    (by norm_num)

theorem neg_score_eval :
    _score_market negWeightSettings zeroConfMarket "basketball" "2023-01-10T19:00:00Z"
      "Houston Rockets" "New York Knicks" (12/5) (47/20) = some negWeightOpp := by
  have hpr0 : pyRound 0 6 = 0 := pyRound_eq_of (z := 0) (by norm_num) (by norm_num)
  unfold _score_market
  rw [neg_profit, if_neg (show ¬((547 : ℤ) < negWeightSettings.min_profit_floor) by
    norm_num [negWeightSettings, defaultSettings])]
  rw [neg_profit_score, neg_risk, neg_volume, neg_stake1, neg_stake2]
  rw [show _kelly_stake negWeightSettings (_arb_margin (12/5) (47/20)) (12/5) (47/20) = 2922 from by
    rw [sample_margin, neg_kelly]]
  rw [neg_line_movement, hpr0]
  rw [show zeroConfMarket.market_type = "spread" from rfl, neg_ceiling]
  rfl

theorem neg_process :
    _process_market negWeightSettings zeroConfMarket "basketball" "2023-01-10T19:00:00Z"
      "Houston Rockets" "New York Knicks" = .ok (some negWeightOpp) := by
  unfold _process_market
  rw [if_neg (show ¬(zeroConfMarket.price_1 = zeroConfMarket.price_2) by decide)]
  rw [if_neg (show ¬(zeroConfMarket.bookmaker_1 = zeroConfMarket.bookmaker_2) by decide)]
  rw [show zeroConfMarket.price_1 = (140 : ℤ) from rfl,
    show zeroConfMarket.price_2 = (135 : ℤ) from rfl]
  simp only [to_decimal_140, to_decimal_135]
  rw [neg_score_eval]

/-! ### The aggregator on non-empty input -/

/-- On any non-empty input, `analyze` evaluates `o.total_stake` (line 72 of
analysis_service.py) on the first opportunity; `ArbitrageOpportunity` has no
such field, so the call raises `AttributeError` before a `PortfolioAnalysis`
is built. -/
theorem analyze_nonempty_error {opps : List ArbitrageOpportunity} (h : opps ≠ []) :
    analyze opps = .error .attributeError := by
  cases opps with
  | nil => exact absurd rfl h
  | cons o rest =>
    simp [analyze, total_stake, List.mapM.loop, exceptErrorBind, exceptMapError]

/-! ### Bounds for the two scores -/

/-- The profit score lies in `[0, 1]` whenever the profit cap is positive. -/
theorem _profit_score_bounds {s : Settings} (hpc : 0 < s.profit_cap) (dec1 dec2 : ℚ) :
    0 ≤ _profit_score s dec1 dec2 ∧ _profit_score s dec1 dec2 ≤ 1 := by
  unfold _profit_score
  split_ifs with hm
  · have h0 : (0 : ℚ) ≤ min (_arb_margin dec1 dec2 / s.profit_cap) 1 :=
      le_min (div_nonneg hm.le hpc.le) zero_le_one
    have h1 : min (_arb_margin dec1 dec2 / s.profit_cap) 1 ≤ 1 := min_le_right _ _
    exact ⟨pyRound_nonneg h0 4, pyRound_le_one h1 4⟩
  · norm_num

/-- The risk score lies in `[0, 1]` for a valid configuration with
nonnegative weights and a confidence in `[0, 1]`. -/
theorem _risk_score_bounds {s : Settings} {m : MarketInput} (hv : ValidConfig s)
    (hwc : 0 ≤ s.weight_confidence) (hwa : 0 ≤ s.weight_arb_validity)
    (hwm : 0 ≤ s.weight_mkt_impact) (hc0 : 0 ≤ m.confidence) (hc1 : m.confidence ≤ 1)
    (dec1 dec2 : ℚ) :
    0 ≤ _risk_score s m dec1 dec2 ∧ _risk_score s m dec1 dec2 ≤ 1 := by
  have hV := _optimal_volume_nonneg hv m dec1 dec2
  obtain ⟨-, -, -, -, -, -, -, -, -, -, -, har, hec, hw⟩ := hv
  have hecq : (0 : ℚ) < (s.exposure_cap : ℚ) := by exact_mod_cast hec
  simp only [_risk_score]
  set avr := (if implied_prob m.price_1 + implied_prob m.price_2 < 1 then (0 : ℚ)
    else min ((implied_prob m.price_1 + implied_prob m.price_2 - 1) / s.arb_risk_cap) 1)
    with havr_def
  set mir := min ((if 0 < _guaranteed_profit s m dec1 dec2 then
      (_optimal_volume s m dec1 dec2 : ℚ) / (_guaranteed_profit s m dec1 dec2 : ℚ)
    else (s.exposure_cap : ℚ)) / (s.exposure_cap : ℚ)) 1 with hmir_def
  have hcr0 : (0 : ℚ) ≤ 1 - m.confidence := by linarith
  have hcr1 : 1 - m.confidence ≤ 1 := by linarith
  have havr0 : 0 ≤ avr := by
    rw [havr_def]
    split_ifs with hti
    · exact le_refl 0
    · exact le_min (div_nonneg (by linarith [not_lt.mp hti]) har.le) zero_le_one
  have havr1 : avr ≤ 1 := by
    rw [havr_def]
    split_ifs with hti
    · norm_num
    · exact min_le_right _ _
  have hmir0 : 0 ≤ mir := by
    rw [hmir_def]
    apply le_min _ zero_le_one
    apply div_nonneg _ hecq.le
    split_ifs with hgp
    · have hgpq : (0 : ℚ) ≤ (_guaranteed_profit s m dec1 dec2 : ℚ) := by
        exact_mod_cast hgp.le
      exact div_nonneg (by exact_mod_cast hV) hgpq
    · exact hecq.le
  have hmir1 : mir ≤ 1 := by
    rw [hmir_def]
    exact min_le_right _ _
  have k1 : 0 ≤ s.weight_confidence * (1 - m.confidence) := mul_nonneg hwc hcr0
  have k2 : 0 ≤ s.weight_arb_validity * avr := mul_nonneg hwa havr0
  have k3 : 0 ≤ s.weight_mkt_impact * mir := mul_nonneg hwm hmir0
  have u1 : s.weight_confidence * (1 - m.confidence) ≤ s.weight_confidence :=
    mul_le_of_le_one_right hwc hcr1
  have u2 : s.weight_arb_validity * avr ≤ s.weight_arb_validity :=
    mul_le_of_le_one_right hwa havr1
  have u3 : s.weight_mkt_impact * mir ≤ s.weight_mkt_impact :=
    mul_le_of_le_one_right hwm hmir1
  constructor
  · exact pyRound_nonneg (by linarith) 4
  · exact pyRound_le_one (by linarith) 4

/-! ### The profit floor along the batch loop -/

/-- Every opportunity in a successful batch result passed the profit-floor
check. -/
theorem _process_markets_floor {s : Settings} {cat dt ht aw : String} :
    ∀ {ms : List MarketInput} {opps : List ArbitrageOpportunity},
      _process_markets s cat dt ht aw ms = .ok opps →
      ∀ o ∈ opps, s.min_profit_floor ≤ o.guaranteed_profit := by
  intro ms
  induction ms with
  | nil =>
    intro opps h o ho
    simp only [_process_markets, Except.ok.injEq] at h
    subst h
    exact absurd ho (by simp)
  | cons m rest ih =>
    intro opps h o ho
    simp only [_process_markets] at h
    split at h
    · exact ih h o ho
    · cases hm : _process_market s m cat dt ht aw with
      | error e => rw [hm, exceptErrorBind] at h; exact absurd h (by simp)
      | ok r =>
        rw [hm, exceptOkBind] at h
        cases hrest : _process_markets s cat dt ht aw rest with
        | error e => rw [hrest, exceptErrorBind] at h; exact absurd h (by simp)
        | ok tail =>
          rw [hrest, exceptOkBind] at h
          cases r with
          | none =>
            simp only [exceptPure, Except.ok.injEq] at h
            subst h
            exact ih hrest o ho
          | some o2 =>
            simp only [exceptPure, Except.ok.injEq] at h
            subst h
            rcases List.mem_cons.mp ho with hoe | hmem
            · subst hoe
              obtain ⟨-, -, d1, d2, -, -, hsc⟩ := _process_market_ok_some hm
              obtain ⟨-, -, -, -, -, -, -, hfl, -, -⟩ := _score_market_eq hsc
              exact hfl
            · exact ih hrest o hmem

/-! ### The confidence filter along the batch loop -/

/-- Markets strictly below the confidence threshold have no effect on the
batch result: filtering them out first changes nothing.  (They are skipped
before `_process_market` runs any arithmetic on them.) -/
theorem _process_markets_filter (s : Settings) (cat dt ht aw : String) :
    ∀ ms : List MarketInput,
      _process_markets s cat dt ht aw
          (ms.filter fun m => decide (s.min_confidence ≤ m.confidence)) =
        _process_markets s cat dt ht aw ms := by
  intro ms
  induction ms with
  | nil => rfl
  | cons m rest ih =>
    by_cases hc : m.confidence < s.min_confidence
    · rw [List.filter_cons,
        if_neg (by simp only [decide_eq_true_eq]; exact fun hle => absurd hle (not_le.mpr hc))]
      conv_rhs => simp only [_process_markets]
      rw [if_pos hc, ih]
    · rw [List.filter_cons, if_pos (by simp only [decide_eq_true_eq]; exact not_lt.mp hc)]
      simp only [_process_markets]
      rw [if_neg hc, if_neg hc, ih]

/-! ### A successful one-market batch -/

/-- The sample one-market payload yields exactly the sample opportunity. -/
theorem sample_batch : process_prediction defaultSettings samplePrediction = .ok [sampleOpp] := by
  show _process_markets defaultSettings "basketball" "2023-01-10T19:00:00Z"
    "Houston Rockets" "New York Knicks" [sampleMarket] = .ok [sampleOpp]
  simp only [_process_markets]
  rw [if_neg (show ¬(sampleMarket.confidence < defaultSettings.min_confidence) by
    norm_num [sampleMarket, defaultSettings])]
  rw [sample_process, exceptOkBind, exceptOkBind]
  rfl

/-! ### The claims -/

/-- C1: the claim states that for every non-empty list of scored
opportunities, `analyze` returns a `PortfolioAnalysis` whose
`total_capital_required` is the sum of `optimal_volume` and whose
`expected_total_profit` is the sum of `guaranteed_profit`.  The code instead
reads `o.total_stake` — a field `ArbitrageOpportunity` does not define — so
`analyze` raises `AttributeError` on every non-empty input and never returns
an analysis at all. -/
theorem C1_analyze_raises_attribute_error (opps : List ArbitrageOpportunity)
    (h : opps ≠ []) : analyze opps = .error .attributeError :=
  analyze_nonempty_error h

theorem C1_witness : analyze [dummyOpp] = .error .attributeError :=
  C1_analyze_raises_attribute_error [dummyOpp] (by simp)

/-- C2 counterexample: at price 0 the code does not raise a typed
InvalidOddsError from both converters: `implied_prob 0` returns the value
0.0, and `to_decimal 0` raises the untyped builtin `ZeroDivisionError`. -/
theorem C2_counterexample :
    implied_prob 0 = 0 ∧ to_decimal 0 = .error .zeroDivisionError :=
  ⟨by norm_num [implied_prob], to_decimal_zero⟩

/-- C2 (amended): for price 0, `implied_prob` returns 0.0 (no error) and
`to_decimal` raises an untyped `ZeroDivisionError`; because the market loop
of `process_prediction` has no per-market exception handling, that error
aborts the whole batch — sibling markets in `rest` are lost, not just the
offending market. -/
theorem C2_zero_price_behavior (s : Settings) (m : MarketInput)
    (rest : List MarketInput) (cat dt ht aw : String)
    (hconf : ¬ m.confidence < s.min_confidence)
    (h0 : m.price_1 = 0) (hp2 : m.price_2 ≠ 0) (hb : m.bookmaker_1 ≠ m.bookmaker_2) :
    implied_prob 0 = 0 ∧
    to_decimal 0 = .error .zeroDivisionError ∧
    _process_markets s cat dt ht aw (m :: rest) = .error .zeroDivisionError := by
  refine ⟨by norm_num [implied_prob], to_decimal_zero, ?_⟩
  have hpm : _process_market s m cat dt ht aw = .error .zeroDivisionError := by
    unfold _process_market
    rw [if_neg (show ¬(m.price_1 = m.price_2) from by rw [h0]; exact fun hc => hp2 hc.symm)]
    rw [if_neg hb, h0, to_decimal_zero]
  simp only [_process_markets]
  rw [if_neg hconf, hpm, exceptErrorBind]

theorem C2_witness :
    ¬ zeroPriceMarket.confidence < defaultSettings.min_confidence ∧
    _process_markets defaultSettings "basketball" "2023-01-10T19:00:00Z" "Houston Rockets"
      "New York Knicks" [zeroPriceMarket, sampleMarket] = .error .zeroDivisionError := by
  have hconf : ¬ zeroPriceMarket.confidence < defaultSettings.min_confidence := by
    norm_num [zeroPriceMarket, sampleMarket, defaultSettings]
  exact ⟨hconf,
    (C2_zero_price_behavior defaultSettings zeroPriceMarket [sampleMarket] "basketball"
      "2023-01-10T19:00:00Z" "Houston Rockets" "New York Knicks" hconf rfl (by decide)
      (by decide)).2.2⟩

/-- C3: for every market the scorer accepts, if the Kelly stake is positive
the optimal volume is exactly the three-way minimum of Kelly stake, market
ceiling and the bankroll cap `round(bankroll * bankroll_cap_pct)` (so it is
bounded by the Kelly stake and by the ceiling); if the Kelly stake is zero
the optimal volume is zero. -/
theorem C3_optimal_volume_three_way_min (s : Settings) (m : MarketInput)
    (cat dt ht aw : String) (opp : ArbitrageOpportunity)
    (h : _process_market s m cat dt ht aw = .ok (some opp)) :
    (0 < opp.kelly_stake →
      opp.optimal_volume =
        min (min opp.kelly_stake opp.market_ceiling)
          (roundHalfEven ((s.bankroll : ℚ) * s.bankroll_cap_pct)) ∧
      opp.optimal_volume ≤ opp.kelly_stake ∧
      opp.optimal_volume ≤ opp.market_ceiling) ∧
    (opp.kelly_stake = 0 → opp.optimal_volume = 0) := by
  obtain ⟨-, -, dec1, dec2, -, -, hsc⟩ := _process_market_ok_some h
  obtain ⟨-, hk, hc, hV, -, -, -, -, -, -⟩ := _score_market_eq hsc
  rw [hV, hk, hc]
  simp only [_optimal_volume, _bankroll_cap]
  constructor
  · intro hk0
    rw [if_pos hk0]
    exact ⟨rfl, le_trans (min_le_left _ _) (min_le_left _ _),
      le_trans (min_le_left _ _) (min_le_right _ _)⟩
  · intro hk0
    rw [hk0]
    rw [if_neg (lt_irrefl 0)]

theorem C3_witness :
    _process_market defaultSettings sampleMarket "basketball" "2023-01-10T19:00:00Z"
      "Houston Rockets" "New York Knicks" = .ok (some sampleOpp) ∧
    ((0 < sampleOpp.kelly_stake →
      sampleOpp.optimal_volume =
        min (min sampleOpp.kelly_stake sampleOpp.market_ceiling)
          (roundHalfEven ((defaultSettings.bankroll : ℚ) * defaultSettings.bankroll_cap_pct)) ∧
      sampleOpp.optimal_volume ≤ sampleOpp.kelly_stake ∧
      sampleOpp.optimal_volume ≤ sampleOpp.market_ceiling) ∧
    (sampleOpp.kelly_stake = 0 → sampleOpp.optimal_volume = 0)) :=
  ⟨sample_process,
   C3_optimal_volume_three_way_min defaultSettings sampleMarket "basketball"
     "2023-01-10T19:00:00Z" "Houston Rockets" "New York Knicks" sampleOpp sample_process⟩

/-- C4: every opportunity in the list returned by `process_prediction` has a
guaranteed profit of at least the configured minimum profit floor; markets
below the floor are simply absent from the returned list (dropped via
`return None`, not raised as an error). -/
theorem C4_profit_floor_invariant (s : Settings) (p : PredictionInput)
    (opps : List ArbitrageOpportunity) (h : process_prediction s p = .ok opps) :
    ∀ o ∈ opps, s.min_profit_floor ≤ o.guaranteed_profit :=
  _process_markets_floor h

theorem C4_witness :
    process_prediction defaultSettings samplePrediction = .ok [sampleOpp] ∧
    ∀ o ∈ [sampleOpp], defaultSettings.min_profit_floor ≤ o.guaranteed_profit :=
  ⟨sample_batch,
   C4_profit_floor_invariant defaultSettings samplePrediction [sampleOpp] sample_batch⟩

/-- C5: for every accepted opportunity (under a configuration satisfying the
specified domain constraints), the two rounded stakes conserve the optimal
volume up to one dollar of rounding slack. -/
theorem C5_stake_conservation (s : Settings) (m : MarketInput) (cat dt ht aw : String)
    (opp : ArbitrageOpportunity) (hv : ValidConfig s)
    (h : _process_market s m cat dt ht aw = .ok (some opp)) :
    |opp.stake_book1 + opp.stake_book2 - opp.optimal_volume| ≤ 1 := by
  obtain ⟨-, -, dec1, dec2, hd1, hd2, hsc⟩ := _process_market_ok_some h
  obtain ⟨-, -, -, hV, hs1, hs2, -, -, -, -⟩ := _score_market_eq hsc
  rw [hs1, hs2, hV]
  exact _stake_conserve hv m (to_decimal_ok_gt_one hd1) (to_decimal_ok_gt_one hd2)

theorem C5_witness :
    ValidConfig defaultSettings ∧
    |sampleOpp.stake_book1 + sampleOpp.stake_book2 - sampleOpp.optimal_volume| ≤ 1 :=
  ⟨by norm_num [ValidConfig, defaultSettings],
   C5_stake_conservation defaultSettings sampleMarket "basketball" "2023-01-10T19:00:00Z"
     "Houston Rockets" "New York Knicks" sampleOpp
     (by norm_num [ValidConfig, defaultSettings]) sample_process⟩

/-- C6 counterexample: a configuration with every cap positive and the three
risk weights summing to exactly 1.0 (which is all
`Settings.validate_risk_weights` checks), together with a market of
confidence 0 and prices +140/+135, is accepted by the scorer with a risk
score strictly greater than 1 — the claimed bound `riskScore ≤ 1` fails
because two of the weights are negative. -/
theorem C6_counterexample :
    negWeightSettings.weight_confidence + negWeightSettings.weight_arb_validity
        + negWeightSettings.weight_mkt_impact = 1 ∧
    0 < negWeightSettings.profit_cap ∧ 0 < negWeightSettings.arb_risk_cap ∧
    0 < negWeightSettings.exposure_cap ∧ 0 < negWeightSettings.bankroll ∧
    0 < negWeightSettings.bankroll_cap_pct ∧
    0 ≤ zeroConfMarket.confidence ∧ zeroConfMarket.confidence ≤ 1 ∧
    100 ≤ |zeroConfMarket.price_1| ∧ 100 ≤ |zeroConfMarket.price_2| ∧
    1 < riskOf (_process_market negWeightSettings zeroConfMarket "basketball"
      "2023-01-10T19:00:00Z" "Houston Rockets" "New York Knicks") := by
  have hr : riskOf (_process_market negWeightSettings zeroConfMarket "basketball"
      "2023-01-10T19:00:00Z" "Houston Rockets" "New York Knicks") = 29733/10000 := by
    unfold riskOf
    simp only [neg_process]
    norm_num [negWeightOpp, sampleOpp]
  refine ⟨by norm_num [negWeightSettings, defaultSettings],
    by norm_num [negWeightSettings, defaultSettings],
    by norm_num [negWeightSettings, defaultSettings],
    by norm_num [negWeightSettings, defaultSettings],
    by norm_num [negWeightSettings, defaultSettings],
    by norm_num [negWeightSettings, defaultSettings],
    by norm_num [zeroConfMarket, sampleMarket],
    by norm_num [zeroConfMarket, sampleMarket],
    by decide, by decide, ?_⟩
  rw [hr]
  norm_num

/-- C6 (amended): with the additional hypothesis that each of the three risk
weights is nonnegative (on top of a valid configuration with positive caps,
the weights summing to 1.0, confidence in `[0,1]` and nonzero prices of
magnitude at least 100), both scores of every accepted opportunity lie in
`[0, 1]`. -/
theorem C6_score_bounds (s : Settings) (m : MarketInput) (cat dt ht aw : String)
    (opp : ArbitrageOpportunity) (hv : ValidConfig s)
    (hwc : 0 ≤ s.weight_confidence) (hwa : 0 ≤ s.weight_arb_validity)
    (hwm : 0 ≤ s.weight_mkt_impact)
    (hc0 : 0 ≤ m.confidence) (hc1 : m.confidence ≤ 1)
    (hm1 : 100 ≤ |m.price_1|) (hm2 : 100 ≤ |m.price_2|)
    (h : _process_market s m cat dt ht aw = .ok (some opp)) :
    0 ≤ opp.profit_score ∧ opp.profit_score ≤ 1 ∧
    0 ≤ opp.risk_score ∧ opp.risk_score ≤ 1 := by
  have hv2 := hv
  obtain ⟨-, -, -, -, -, -, -, -, -, -, hpc, -, -, -⟩ := hv2
  obtain ⟨-, -, dec1, dec2, -, -, hsc⟩ := _process_market_ok_some h
  obtain ⟨-, -, -, -, -, -, -, -, hps, hrs⟩ := _score_market_eq hsc
  rw [hps, hrs]
  have hp := _profit_score_bounds hpc dec1 dec2
  have hr := _risk_score_bounds hv hwc hwa hwm hc0 hc1 dec1 dec2
  exact ⟨hp.1, hp.2, hr.1, hr.2⟩

theorem C6_witness :
    ValidConfig defaultSettings ∧
    0 ≤ sampleOpp.profit_score ∧ sampleOpp.profit_score ≤ 1 ∧
    0 ≤ sampleOpp.risk_score ∧ sampleOpp.risk_score ≤ 1 :=
  ⟨by norm_num [ValidConfig, defaultSettings],
   C6_score_bounds defaultSettings sampleMarket "basketball" "2023-01-10T19:00:00Z"
     "Houston Rockets" "New York Knicks" sampleOpp
     (by norm_num [ValidConfig, defaultSettings])
     (by norm_num [defaultSettings]) (by norm_num [defaultSettings])
     (by norm_num [defaultSettings])
     (by norm_num [sampleMarket]) (by norm_num [sampleMarket])
     (by decide) (by decide) sample_process⟩

/-- C7: the claim states that `analyze` returns a ranked list (stable sort
by profit score descending then risk score ascending) with the best
opportunity first.  For every non-empty input the code never returns at all
(the `total_stake` AttributeError of C1 precedes the return), so no ranked
output is ever produced; only the empty-input branch returns, with an empty
ranking and no best opportunity. -/
theorem C7_ranking_unreachable :
    (∀ (opps : List ArbitrageOpportunity) (pa : PortfolioAnalysis),
      opps ≠ [] → analyze opps ≠ .ok pa) ∧
    analyze [] = .ok emptyAnalysis ∧
    emptyAnalysis.ranked_opportunities = [] ∧ emptyAnalysis.best_opportunity = none := by
  refine ⟨?_, rfl, rfl, rfl⟩
  intro opps pa hne hok
  rw [analyze_nonempty_error hne] at hok
  exact absurd hok (by simp)

theorem C7_witness :
    analyze [dummyOpp] ≠ .ok emptyAnalysis ∧ analyze [] = .ok emptyAnalysis :=
  ⟨C7_ranking_unreachable.1 [dummyOpp] emptyAnalysis (by simp),
   C7_ranking_unreachable.2.1⟩

/-- C8: markets strictly below the confidence threshold are dropped before
any scoring arithmetic runs (filtering them away first leaves the batch
result unchanged — even their prices are never touched), and the boundary is
inclusive: a market whose confidence equals `min_confidence` exactly is
passed on to `_process_market`. -/
theorem C8_confidence_gate (s : Settings) (p : PredictionInput) :
    (process_prediction s p =
      process_prediction s
        { p with markets := p.markets.filter fun m => decide (s.min_confidence ≤ m.confidence) }) ∧
    (∀ (m : MarketInput) (rest : List MarketInput), m.confidence = s.min_confidence →
      _process_markets s p.category p.date p.home_team p.away_team (m :: rest) = do
        let r ← _process_market s m p.category p.date p.home_team p.away_team
        let tail ← _process_markets s p.category p.date p.home_team p.away_team rest
        match r with
        | some o => pure (o :: tail)
        | none => pure tail) := by
  constructor
  · exact (_process_markets_filter s p.category p.date p.home_team p.away_team p.markets).symm
  · intro m rest hconf
    simp only [_process_markets]
    rw [if_neg (by rw [hconf]; exact lt_irrefl _)]

theorem C8_witness :
    atThresholdMarket.confidence = defaultSettings.min_confidence ∧
    (process_prediction defaultSettings samplePrediction =
      process_prediction defaultSettings
        { samplePrediction with
            markets := samplePrediction.markets.filter
              fun m => decide (defaultSettings.min_confidence ≤ m.confidence) }) ∧
    (_process_markets defaultSettings samplePrediction.category samplePrediction.date
        samplePrediction.home_team samplePrediction.away_team [atThresholdMarket] = do
      let r ← _process_market defaultSettings atThresholdMarket samplePrediction.category
        samplePrediction.date samplePrediction.home_team samplePrediction.away_team
      let tail ← _process_markets defaultSettings samplePrediction.category
        samplePrediction.date samplePrediction.home_team samplePrediction.away_team []
      match r with
      | some o => pure (o :: tail)
      | none => pure tail) :=
  ⟨by norm_num [atThresholdMarket, sampleMarket, defaultSettings],
   (C8_confidence_gate defaultSettings samplePrediction).1,
   (C8_confidence_gate defaultSettings samplePrediction).2 atThresholdMarket []
     (by norm_num [atThresholdMarket, sampleMarket, defaultSettings])⟩

/-- C9: for every nonzero price of magnitude at least 100, `to_decimal`
succeeds with a value strictly greater than one; consequently the
`binding_side - 1 == 0` guard of `_kelly_stake` is unreachable for such
inputs, and for a positive arbitrage margin the stake is computed by the
full-Kelly formula. -/
theorem C9_decimal_gt_one_kelly_formula :
    (∀ p : ℤ, p ≠ 0 → 100 ≤ |p| → ∃ d, to_decimal p = .ok d ∧ 1 < d) ∧
    (∀ (s : Settings) (w dec1 dec2 : ℚ), 1 < dec1 → 1 < dec2 → 0 < w →
      _kelly_stake s w dec1 dec2 =
        roundHalfEven (w / (min dec1 dec2 - 1) * s.kelly_fraction * (s.bankroll : ℚ))) := by
  constructor
  · intro p hp hmag
    obtain ⟨d, hd⟩ := to_decimal_ne_zero_ok hp
    exact ⟨d, hd, to_decimal_ok_gt_one hd⟩
  · intro s w dec1 dec2 h1 h2 hm
    simp only [_kelly_stake]
    rw [if_neg (not_le.mpr hm)]
    rw [if_neg (show ¬(min dec1 dec2 - 1 = 0) from by
      have hmin : 1 < min dec1 dec2 := lt_min h1 h2
      intro hc
      linarith)]

theorem C9_witness :
    (∃ d, to_decimal 140 = .ok d ∧ 1 < d) ∧
    _kelly_stake defaultSettings (89/564) (12/5) (47/20) =
      roundHalfEven ((89/564 : ℚ) / (min (12/5 : ℚ) (47/20) - 1)
        * defaultSettings.kelly_fraction * (defaultSettings.bankroll : ℚ)) :=
  ⟨C9_decimal_gt_one_kelly_formula.1 140 (by decide) (by decide),
   C9_decimal_gt_one_kelly_formula.2 defaultSettings (89/564) (12/5) (47/20)
     (by norm_num) (by norm_num) (by norm_num)⟩

/-- C10: for a market type whose lowercase form is none of "moneyline",
"spread", "points_total", the sensitivity lookup silently falls back to the
moneyline sensitivity, and the market-ceiling computation therefore succeeds
with that constant. -/
theorem C10_sensitivity_fallback (s : Settings) (mt : String) (lm : ℚ)
    (h1 : str_lower mt ≠ "moneyline") (h2 : str_lower mt ≠ "spread")
    (h3 : str_lower mt ≠ "points_total") :
    _get_sensitivity s mt = s.sensitivity_moneyline ∧
    _market_ceiling s lm mt =
      roundHalfEven (max (s.trigger_threshold - lm * 0.5) 0.001 * (s.sensitivity_moneyline : ℚ)) := by
  have hs : _get_sensitivity s mt = s.sensitivity_moneyline := by
    unfold _get_sensitivity
    split
    · rfl
    · rename_i heq
      exact absurd heq h2
    · rename_i heq
      exact absurd heq h3
    · rfl
  refine ⟨hs, ?_⟩
  simp only [_market_ceiling, hs]

theorem C10_witness :
    str_lower "team_total" ≠ "moneyline" ∧
    _get_sensitivity defaultSettings "team_total" = defaultSettings.sensitivity_moneyline ∧
    _market_ceiling defaultSettings 0 "team_total" =
      roundHalfEven (max (defaultSettings.trigger_threshold - 0 * 0.5) 0.001
        * (defaultSettings.sensitivity_moneyline : ℚ)) := by
  have h1 : str_lower "team_total" ≠ "moneyline" := by decide
  have h2 : str_lower "team_total" ≠ "spread" := by decide
  have h3 : str_lower "team_total" ≠ "points_total" := by decide
  obtain ⟨ha, hb⟩ := C10_sensitivity_fallback defaultSettings "team_total" 0 h1 h2 h3
  exact ⟨h1, ha, hb⟩
